import Mathlib

/-!
# iLoveExcel core engines: a shallow embedding

This file models the core tabular engines of the iLoveExcel repository
(`src/iLoveExcel/{diffs,unions,joins,excel_merge,io,utils}.py`) and proves or
refutes the frozen claims about them.

A table (`DF`) is an ordered list of column names plus a list of rows; a cell
is `Option Val` where `none` is the pandas missing value (NaN).  Python string
primitives that the code relies on (`str.replace`, `str.strip`, `str.lower`,
`endswith`, code-point ordering used by `sorted`) are modelled over `String`
with structurally recursive definitions so that every concrete evaluation can
be discharged by `decide`.

Pandas behaviours that the code depends on are modelled explicitly:
* `DataFrame.astype(str)` turns a missing value into the literal string `"nan"`;
* `pd.Index.union` (used by `union_csvs`) returns the *sorted* union of the
  names, while `pd.concat` (used by `union_multiple_csvs`) keeps the first
  frame's columns followed by new names in encounter order;
* `pd.merge` suffixes only the overlapping non-key columns, keeps key columns
  once, and appends the `_merge` indicator column last.  For outer merges the
  model lists matched rows in left-table order followed by unmatched right
  rows; no claim proved below depends on the row order, only on the
  multiset of classified rows and on column lists.
-/

namespace ILoveExcel

/-- A tagged scalar value of a cell (CSV values are strings or numbers). -/
inductive Val where
  | str : String → Val
  | int : Int → Val
deriving DecidableEq, Repr

/-- A cell: `none` is the pandas missing value (NaN). -/
abbrev Cell := Option Val

/-- A dataframe: ordered column names and rows of cells (one cell per column). -/
structure DF where
  cols : List String
  rows : List (List Cell)
deriving DecidableEq, Repr

/-! ## Python string primitives -/

/-- Python `list.__le__` on code points, specialised to characters. -/
def charListLe : List Char → List Char → Bool
  | [], _ => true
  | _ :: _, [] => false
  | a :: as, b :: bs =>
    if a.toNat < b.toNat then true
    else if b.toNat < a.toNat then false
    else charListLe as bs

/-- Python string `<=` (lexicographic on code points), used by `sorted`. -/
def strLe (a b : String) : Bool := charListLe a.toList b.toList

/-- Insert into a `strLe`-sorted list (helper of the `sorted` model). -/
def insertStr (s : String) : List String → List String
  | [] => [s]
  | t :: ts => if strLe s t then s :: t :: ts else t :: insertStr s ts

/-- Python `sorted` on a list of strings (insertion sort). -/
def sortStrs (l : List String) : List String := l.foldr insertStr []

/-- Fuel-driven worker for `pyReplace` (fuel bounds the number of steps,
starting at the length of the scanned list, so the recursion is structural). -/
def replaceCharsAux (pat rep : List Char) : Nat → List Char → List Char
  | 0, l => l
  | _ + 1, [] => []
  | fuel + 1, c :: cs =>
    if pat.isPrefixOf (c :: cs) then
      rep ++ replaceCharsAux pat rep fuel ((c :: cs).drop pat.length)
    else
      c :: replaceCharsAux pat rep fuel cs

/-- Python `str.replace`: replace every occurrence of `pat` by `rep`.
(The source never calls it with an empty pattern.) -/
def pyReplace (s pat rep : String) : String :=
  if pat.toList.isEmpty then s
  else ⟨replaceCharsAux pat.toList rep.toList s.toList.length s.toList⟩

/-- Python `str.endswith`. -/
def endsWithStr (s suffixStr : String) : Bool :=
  suffixStr.toList.isSuffixOf s.toList

/-- Python `str.strip` (whitespace trimming at both ends). -/
def trimChars (s : String) : String :=
  ⟨((s.toList.dropWhile Char.isWhitespace).reverse.dropWhile Char.isWhitespace).reverse⟩

/-- Python `str.lower`. -/
def lowerStr (s : String) : String := ⟨s.toList.map Char.toLower⟩

/-- Python `str(value)` on a cell's scalar. -/
def pyStrVal : Val → String
  | .str s => s
  | .int n => toString n

/-! ## Basic dataframe operations -/

/-- Label-based lookup of a cell in a row (`Series.get`): the value paired
with the first occurrence of the column name, `none` if the label is absent
(pandas returns `None`, which `pd.isna` treats like NaN). -/
def lookupCell : List String → List Cell → String → Cell
  | [], _, _ => none
  | _ :: _, [], _ => none
  | c0 :: cs, v :: vs, c => if c0 = c then v else lookupCell cs vs c

/-- `DataFrame.reindex(columns=newCols)` applied to one row: keep values of
present columns, pad absent ones with missing. -/
def reindexRow (cols : List String) (row : List Cell) (newCols : List String) : List Cell :=
  newCols.map (lookupCell cols row)

/-- `DataFrame.reindex(columns=newCols)` (also models column selection
`df[newCols]` when every name is present). -/
def reindexDF (df : DF) (newCols : List String) : DF :=
  ⟨newCols, df.rows.map (fun r => reindexRow df.cols r newCols)⟩

/-- Union of two column lists in encounter order (the `pd.concat` order):
the first list, then the new names of the second in their order. -/
def colUnion (a b : List String) : List String :=
  a ++ b.filter (fun c => decide (c ∉ a))

/-! ## Union engine (`unions.py`) -/

/-- Python `set(a) == set(b)` on column lists. -/
def colSetEq (a b : List String) : Bool :=
  decide ((∀ c ∈ a, c ∈ b) ∧ ∀ c ∈ b, c ∈ a)

/-- `pd.concat([a, b], ignore_index=True)` (default `sort=False`): columns are
the encounter-order union, each frame reindexed to them. -/
def concat2 (a b : DF) : DF :=
  let cols := colUnion a.cols b.cols
  ⟨cols, (reindexDF a cols).rows ++ (reindexDF b cols).rows⟩

/-- `pd.concat(dfs, ignore_index=True)` over a list of frames. -/
def concatAll (dfs : List DF) : DF :=
  let cols := dfs.foldl (fun acc d => colUnion acc d.cols) []
  ⟨cols, (dfs.map (fun d => (reindexDF d cols).rows)).flatten⟩

/-- The dedup key of a row: the full row, or the projection to the subset
columns (`drop_duplicates(subset=...)`); an empty subset list is falsy in
Python and means the full row. -/
def rowKey (cols : List String) (sub : Option (List String)) (r : List Cell) : List Cell :=
  match sub with
  | none => r
  | some [] => r
  | some cs => cs.map (lookupCell cols r)

/-- `drop_duplicates(keep='first')` under a key function (pandas treats
NaN = NaN as a duplicate match, as does `Cell` equality). -/
def dedupeRowsBy (key : List Cell → List Cell) (seen : List (List Cell)) :
    List (List Cell) → List (List Cell)
  | [] => []
  | r :: rs =>
    if key r ∈ seen then dedupeRowsBy key seen rs
    else r :: dedupeRowsBy key (key r :: seen) rs

/-- `union_csvs(file_a, file_b, output, dedupe, dedupe_columns)` minus the
file I/O.  When the column sets differ the code reindexes both frames to
`list(df_a.columns.union(df_b.columns))`, and `pd.Index.union` returns the
names *sorted*; then it concatenates and optionally deduplicates. -/
def union_csvs (a b : DF) (dedupe : Bool) (dedupeColumns : Option (List String)) : DF :=
  let p :=
    if colSetEq a.cols b.cols then (a, b)
    else
      let allColumns := sortStrs (colUnion a.cols b.cols)
      (reindexDF a allColumns, reindexDF b allColumns)
  let u := concat2 p.1 p.2
  if dedupe then ⟨u.cols, dedupeRowsBy (rowKey u.cols dedupeColumns) [] u.rows⟩ else u

/-- Failure cases of the union engine. -/
inductive UnionError where
  | emptyFiles
deriving DecidableEq, Repr

/-- `union_multiple_csvs(files, output, dedupe, dedupe_columns)` in the
un-chunked path: read every frame, `pd.concat` them, optionally
deduplicate; an empty file list raises. -/
def union_multiple_csvs (dfs : List DF) (dedupe : Bool)
    (dedupeColumns : Option (List String)) : Except UnionError DF :=
  if dfs.isEmpty then .error .emptyFiles
  else
    let u := concatAll dfs
    .ok (if dedupe then ⟨u.cols, dedupeRowsBy (rowKey u.cols dedupeColumns) [] u.rows⟩ else u)

/-! ## Join engine (`joins.py`) -/

/-- Failure cases of `join_csvs` (the source raises `ValueError` with a
message naming the kind of failure; the constructors carry the same data). -/
inductive JoinError where
  | invalidHow (how : String)
  | keyNotFoundLeft (key : String)
  | keyNotFoundRight (key : String)
deriving DecidableEq, Repr

/-- The valid `how` values of `join_csvs`. -/
def validHow : List String := ["inner", "left", "right", "outer", "cross"]

/-- The key-validation loop of `join_csvs`: for each key, check the left
frame then the right frame, stopping at the first missing column. -/
def validateJoinKeys (l r : DF) : List String → Option JoinError
  | [] => none
  | k :: ks =>
    if k ∈ l.cols then
      if k ∈ r.cols then validateJoinKeys l r ks
      else some (.keyNotFoundRight k)
    else some (.keyNotFoundLeft k)

/-- Output columns of `pd.merge`: the left columns (overlapping non-key names
suffixed with `sufL`), the right non-key columns (overlapping names suffixed
with `sufR`), and, with `indicator=True`, a final `_merge` column. -/
def mergeOutCols (l r : DF) (keys : List String) (sufL sufR : String)
    (indicator : Bool) : List String :=
  l.cols.map (fun c =>
      if c ∈ keys then c
      else if c ∈ r.cols then c ++ sufL else c)
    ++ (r.cols.filter (fun c => decide (c ∉ keys))).map (fun c =>
      if c ∈ l.cols then c ++ sufR else c)
    ++ (if indicator then ["_merge"] else [])

/-- One output row of `pd.merge` from an optional left and right source row:
left-frame cells (key cells coalesced from the right row when the left side
is absent), right non-key cells, and the indicator marker. -/
def mergeRow (l r : DF) (keys : List String) (indicator : Bool)
    (la? rb? : Option (List Cell)) : List Cell :=
  let leftPart := l.cols.map (fun c =>
    match la? with
    | some la => lookupCell l.cols la c
    | none =>
      if c ∈ keys then
        match rb? with
        | some rb => lookupCell r.cols rb c
        | none => none
      else none)
  let rightPart := (r.cols.filter (fun c => decide (c ∉ keys))).map (fun c =>
    match rb? with
    | some rb => lookupCell r.cols rb c
    | none => none)
  let ind : List Cell :=
    if indicator then
      [some (Val.str (match la?, rb? with
        | some _, some _ => "both"
        | some _, none => "left_only"
        | none, _ => "right_only"))]
    else []
  leftPart ++ rightPart ++ ind

/-- Composite-key match between a left and a right row (pandas matches NaN
keys with each other, as does `Cell` equality). -/
def sameKeyRows (l r : DF) (keys : List String) (la rb : List Cell) : Bool :=
  decide (keys.map (lookupCell l.cols la) = keys.map (lookupCell r.cols rb))

/-- `pd.merge(l, r, on=keys, how=how, suffixes=(sufL, sufR), indicator=...)`
for the keyed kinds.  Rows: every matching pair in left-major order; for
`left`/`outer` the unmatched left rows are kept missing-padded in place, and
for `right`/`outer` the unmatched right rows are appended.  (Pandas orders an
outer merge by sorted key; no theorem below depends on the row order.) -/
def pandasMerge (l r : DF) (keys : List String) (how : String)
    (indicator : Bool) (sufL sufR : String) : DF :=
  let cols := mergeOutCols l r keys sufL sufR indicator
  let leftPaired := l.rows.flatMap (fun la =>
    let ms := r.rows.filter (fun rb => sameKeyRows l r keys la rb)
    if ms.isEmpty then
      if how = "inner" ∨ how = "right" then []
      else [mergeRow l r keys indicator (some la) none]
    else ms.map (fun rb => mergeRow l r keys indicator (some la) (some rb)))
  let rightOnly :=
    if how = "right" ∨ how = "outer" then
      (r.rows.filter (fun rb => l.rows.all (fun la => !sameKeyRows l r keys la rb))).map
        (fun rb => mergeRow l r keys indicator none (some rb))
    else []
  ⟨cols, leftPaired ++ rightOnly⟩

/-- `l.merge(r, how='cross')`: every left row paired with every right row;
overlapping column names get the default `_x`/`_y` suffixes. -/
def crossJoin (l r : DF) : DF :=
  ⟨l.cols.map (fun c => if c ∈ r.cols then c ++ "_x" else c)
      ++ r.cols.map (fun c => if c ∈ l.cols then c ++ "_y" else c),
    l.rows.flatMap (fun lr => r.rows.map (fun rr => lr ++ rr))⟩

/-- `join_csvs(file_left, file_right, on, how)` minus the file I/O: validate
`how`, validate that every key exists in both frames (this runs for every
kind, *including* `cross`), then branch on the kind. -/
def join_csvs (l r : DF) (onKeys : List String) (how : String) : Except JoinError DF :=
  if how ∈ validHow then
    match validateJoinKeys l r onKeys with
    | some e => .error e
    | none =>
      if how = "cross" then .ok (crossJoin l r)
      else .ok (pandasMerge l r onKeys how false "_x" "_y")
  else .error (.invalidHow how)

/-! ## Merge engine (`excel_merge.py`) -/

/-- Failure cases of the strict sheet merge (the source raises `ValueError`
whose message names the sheet, the reference columns and the deviating
columns; the spec calls this condition `ColumnMismatchError`). -/
inductive MergeError where
  | columnMismatch (sheet : String) (reference current : List String)
  | noSheets
deriving DecidableEq, Repr

/-- The strict-mode loop over the non-reference workbooks: compare each
sheet's column list (name *and* order) with the reference, stopping with a
mismatch error at the first deviation, otherwise collecting the rows. -/
def mergeRowsStrict (sheet : String) (refCols : List String) :
    List (String × DF) → Except MergeError (List (List Cell))
  | [] => .ok []
  | (_, df) :: rest =>
    if df.cols = refCols then
      match mergeRowsStrict sheet refCols rest with
      | .ok rs => .ok (df.rows ++ rs)
      | .error e => .error e
    else .error (.columnMismatch sheet refCols df.cols)

/-- `_merge_sheets_strict(sheet_dfs, sheet_name)`: the first workbook is the
reference; every later occurrence must match its columns exactly, and the
result is the concatenation of all rows. -/
def mergeSheetsStrict (sheetDfs : List (String × DF)) (sheet : String) :
    Except MergeError DF :=
  match sheetDfs with
  | [] => .error .noSheets
  | (_, rdf) :: rest =>
    match mergeRowsStrict sheet rdf.cols rest with
    | .ok rs => .ok ⟨rdf.cols, rdf.rows ++ rs⟩
    | .error e => .error e

/-! ## Diff engine (`diffs.py`) -/

/-- Failure cases of `diff_csv_side_by_side`. -/
inductive DiffError where
  | keyColumnsRequired
  | keyNotFound (key side : String)
deriving DecidableEq, Repr

/-- A column has pandas dtype `object` when it holds at least one string
value (a CSV column of pure numbers is numeric, an all-missing column is
float); only such columns are touched by the normalisation helpers. -/
def colIsObject (df : DF) (j : Nat) : Bool :=
  df.rows.any (fun r =>
    match r.getD j none with
    | some (Val.str _) => true
    | _ => false)

/-- `series.astype(str).str.strip()` on one cell: a missing value becomes the
literal string `"nan"`, any scalar becomes its string form, trimmed. -/
def astypeStrStripCell : Cell → Cell
  | none => some (.str "nan")
  | some v => some (.str (trimChars (pyStrVal v)))

/-- `series.astype(str).str.lower()` on one cell. -/
def astypeStrLowerCell : Cell → Cell
  | none => some (.str "nan")
  | some v => some (.str (lowerStr (pyStrVal v)))

/-- Apply a per-cell normaliser to the cells of the object-dtype columns of
`df`, leaving the other columns unchanged (`k` is the index of the first
cell of the processed suffix). -/
def normRow (df : DF) (f : Cell → Cell) : Nat → List Cell → List Cell
  | _, [] => []
  | k, c :: cs => (if colIsObject df k then f c else c) :: normRow df f (k + 1) cs

/-- `_strip_whitespace(df)`: `astype(str).str.strip()` on every object
column. -/
def stripDF (df : DF) : DF :=
  ⟨df.cols, df.rows.map (normRow df astypeStrStripCell 0)⟩

/-- `_lowercase_strings(df)`: `astype(str).str.lower()` on every object
column. -/
def lowerDF (df : DF) : DF :=
  ⟨df.cols, df.rows.map (normRow df astypeStrLowerCell 0)⟩

/-- Pad (or cut) a frame to exactly `n` rows, missing rows all-NaN: models
`df.reindex(sorted(set(df_a.index) | set(df_b.index)))` where the index of a
freshly read frame is `0..len-1`, so the union is `0..max-1`. -/
def padRows (df : DF) (n : Nat) : DF :=
  ⟨df.cols, (List.range n).map (fun i => df.rows.getD i (df.cols.map (fun _ => none)))⟩

/-- `_align_by_index(df_a, df_b, ignore_column_order)`: align columns (sorted
common names, or A's names extended by B's new names with NaN padding), then
align rows on the union of the indices. -/
def align_by_index (a b : DF) (ignoreColumnOrder : Bool) : DF × DF :=
  let p :=
    if ignoreColumnOrder then
      let common := sortStrs ((a.cols.filter (fun c => decide (c ∈ b.cols))).eraseDups)
      (reindexDF a common, reindexDF b common)
    else
      let allCols := colUnion a.cols b.cols
      (reindexDF a allCols, reindexDF b allCols)
  let n := max p.1.rows.length p.2.rows.length
  (padRows p.1 n, padRows p.2 n)

/-- `df.copy()` with an appended integer row-number column (`_row_a`/`_row_b`
in `_align_by_key`). -/
def addRowNums (df : DF) (colName : String) : DF :=
  ⟨df.cols ++ [colName], df.rows.enum.map (fun p => p.2 ++ [some (.int p.1)])⟩

/-- The outer merge of `_align_by_key`: both frames get a row-number column,
then `pd.merge(..., on=keys, how='outer', suffixes=('_a','_b'),
indicator=True)`. -/
def alignKeyMerged (a b : DF) (keys : List String) : DF :=
  pandasMerge (addRowNums a "_row_a") (addRowNums b "_row_b") keys "outer" true "_a" "_b"

/-- The A-side column selection of `_align_by_key`:
`c.endswith('_a') or c in key_columns or c == '_merge'`. -/
def alignSelectA (keys cols : List String) : List String :=
  cols.filter (fun c => endsWithStr c "_a" || decide (c ∈ keys) || decide (c = "_merge"))

/-- The B-side column selection of `_align_by_key`. -/
def alignSelectB (keys cols : List String) : List String :=
  cols.filter (fun c => endsWithStr c "_b" || decide (c ∈ keys) || decide (c = "_merge"))

/-- `_align_by_key(df_a, df_b, key_columns, ...)` after key validation:
outer-merge, select each side's columns, and rename them by deleting every
occurrence of the side's suffix (`c.replace('_a', '')`). -/
def alignByKeyFrames (a b : DF) (keys : List String) : DF × DF :=
  let merged := alignKeyMerged a b keys
  let selA := alignSelectA keys merged.cols
  let selB := alignSelectB keys merged.cols
  (⟨selA.map (fun c => pyReplace c "_a" ""), (reindexDF merged selA).rows⟩,
   ⟨selB.map (fun c => pyReplace c "_b" ""), (reindexDF merged selB).rows⟩)

/-- The key-validation loop of `_align_by_key`: per key, file A first. -/
def validateDiffKeys (a b : DF) : List String → Option DiffError
  | [] => none
  | k :: ks =>
    if k ∈ a.cols then
      if k ∈ b.cols then validateDiffKeys a b ks
      else some (.keyNotFound k "B")
    else some (.keyNotFound k "A")

/-- Row classification statuses of the diff engine. -/
inductive Status where
  | MATCH
  | DIFF
  | ONLY_A
  | ONLY_B
deriving DecidableEq, Repr

/-- The aggregate statistics dictionary of `_compare_dataframes`. -/
structure Stats where
  total : Nat
  matching : Nat
  different : Nat
  only_a : Nat
  only_b : Nat
deriving DecidableEq, Repr

/-- `val_a != val_b` preceded by the both-NaN guard of `_compare_dataframes`
(`pd.isna(val_a) and pd.isna(val_b)` ⇒ no difference; NaN against a value is
a difference, as in Python where NaN compares unequal to everything). -/
def cellsDiffer : Cell → Cell → Bool
  | none, none => false
  | some x, some y => decide (x ≠ y)
  | _, _ => true

/-- Classification of one aligned row pair, in the priority order of the
source: `ONLY_A`, `ONLY_B`, then cell-wise comparison over the A-side
columns. -/
def rowStatus (colsA colsB : List String) (rowA rowB : List Cell) : Status :=
  if (rowA.any (fun c => c.isSome)) && (rowB.all (fun c => c.isNone)) then .ONLY_A
  else if (rowA.all (fun c => c.isNone)) && (rowB.any (fun c => c.isSome)) then .ONLY_B
  else if colsA.any (fun c => cellsDiffer (lookupCell colsA rowA c) (lookupCell colsB rowB c)) then
    .DIFF
  else .MATCH

/-- One row of the diff result table: the row index, its status, and per
A-side column the pair of `_A` and `_B` values. -/
structure DiffRow where
  idx : Nat
  status : Status
  vals : List (Cell × Cell)
deriving DecidableEq, Repr

/-- Build one result row of `_compare_dataframes`. -/
def diffRowOf (colsA colsB : List String) (idx : Nat) (rowA rowB : List Cell) : DiffRow :=
  { idx := idx
    status := rowStatus colsA colsB rowA rowB
    vals := colsA.map (fun c => (lookupCell colsA rowA c, lookupCell colsB rowB c)) }

/-- Count of a status in a status list. -/
def countStatus (sts : List Status) (s : Status) : Nat :=
  (sts.filter (fun t => decide (t = s))).length

/-- The statistics dictionary accumulated by `_compare_dataframes`. -/
def diffStats (sts : List Status) : Stats :=
  { total := sts.length
    matching := countStatus sts .MATCH
    different := countStatus sts .DIFF
    only_a := countStatus sts .ONLY_A
    only_b := countStatus sts .ONLY_B }

/-- `_compare_dataframes(df_a, df_b, show_only_diffs)`: classify every
aligned row pair, keep a result row unless it is a `MATCH` filtered out by
`show_only_diffs`, and count every status. -/
def compareDFs (a b : DF) (showOnlyDiffs : Bool) : List DiffRow × Stats :=
  let allRows := (a.rows.zip b.rows).enum.map (fun p => diffRowOf a.cols b.cols p.1 p.2.1 p.2.2)
  (allRows.filter (fun r => !showOnlyDiffs || !decide (r.status = Status.MATCH)),
   diffStats (allRows.map (fun r => r.status)))

/-- `diff_csv_side_by_side` minus the file I/O: optional normalisation of
both frames, alignment by index or by validated key columns, then the
comparison. -/
def diff_csv_side_by_side (dfA dfB : DF) (keyColumns : Option (List String))
    (compareByIndex ignoreWhitespace caseInsensitive ignoreColumnOrder showOnlyDiffs : Bool) :
    Except DiffError (List DiffRow × Stats) :=
  let dfA := if ignoreWhitespace then stripDF dfA else dfA
  let dfB := if ignoreWhitespace then stripDF dfB else dfB
  let dfA := if caseInsensitive then lowerDF dfA else dfA
  let dfB := if caseInsensitive then lowerDF dfB else dfB
  if compareByIndex then
    let p := align_by_index dfA dfB ignoreColumnOrder
    .ok (compareDFs p.1 p.2 showOnlyDiffs)
  else
    match keyColumns with
    | none => .error .keyColumnsRequired
    | some [] => .error .keyColumnsRequired
    | some keys =>
      match validateDiffKeys dfA dfB keys with
      | some e => .error e
      | none =>
        let p := alignByKeyFrames dfA dfB keys
        .ok (compareDFs p.1 p.2 showOnlyDiffs)

/-! ## Sheet-name handling (`utils.py` and `io.py`) -/

/-- The characters Excel forbids in sheet names. -/
def invalidSheetChars : List Char := ['/', '\\', '?', '*', '[', ']']

/-- Take the first `n` characters of a string (Python slicing `s[:n]`). -/
def takeChars (s : String) (n : Nat) : String := ⟨s.toList.take n⟩

/-- `utils.safe_sheet_name(name, max_length=31)`: substitute each of the six
invalid characters with an underscore, truncate, and fall back to
`"Sheet1"` for an empty or blank result. -/
def safe_sheet_name (name : String) (maxLength : Nat := 31) : String :=
  if name.toList.isEmpty then "Sheet1"
  else
    let replaced := invalidSheetChars.foldl (fun acc ch => pyReplace acc ⟨[ch]⟩ "_") name
    let truncated := takeChars replaced maxLength
    if (trimChars truncated).toList.isEmpty then "Sheet1" else truncated

/-- The in-line sanitisation of `io.write_dataframes_to_excel`:
`sheet_name[:31].replace('/', '_').replace('\\', '_')` — only the slash
characters are substituted. -/
def writeSheetName (sheetName : String) : String :=
  pyReplace (pyReplace (takeChars sheetName 31) "/" "_") "\\" "_"

/-- Whether a sheet name satisfies the Excel constraints the spec states:
at most 31 characters and none of the six invalid characters. -/
def validSheetName (s : String) : Bool :=
  s.toList.length ≤ 31 && s.toList.all (fun c => decide (c ∉ invalidSheetChars))

/-! ## Helper lemmas -/

theorem mem_insertStr {c s : String} {l : List String} :
    c ∈ insertStr s l ↔ c = s ∨ c ∈ l := by
  induction l with
  | nil => simp [insertStr]
  | cons t ts ih =>
    cases h : strLe s t with
    | true => simp [insertStr, h]
    | false =>
      simp only [insertStr, h, Bool.false_eq_true, if_false, List.mem_cons, ih]
      tauto

theorem mem_sortStrs {c : String} {l : List String} : c ∈ sortStrs l ↔ c ∈ l := by
  induction l with
  | nil => simp [sortStrs]
  | cons x xs ih =>
    simp only [sortStrs, List.foldr_cons] at ih ⊢
    simp [mem_insertStr, ih]

theorem mem_colUnion {c : String} {a b : List String} :
    c ∈ colUnion a b ↔ c ∈ a ∨ c ∈ b := by
  simp only [colUnion, List.mem_append, List.mem_filter, decide_eq_true_eq]
  tauto

theorem colUnion_nil (l : List String) : colUnion [] l = l := by
  unfold colUnion
  rw [List.nil_append]
  apply List.filter_eq_self.mpr
  intro a _
  simp

theorem colUnion_self (l : List String) : colUnion l l = l := by
  unfold colUnion
  have h : l.filter (fun c => decide (c ∉ l)) = [] := by
    apply List.filter_eq_nil_iff.mpr
    intro a ha
    simp [ha]
  rw [h, List.append_nil]

theorem lookupCell_not_mem {c : String} (cols : List String) (row : List Cell)
    (h : c ∉ cols) : lookupCell cols row c = none := by
  induction cols generalizing row with
  | nil => rfl
  | cons c0 cs ih =>
    cases row with
    | nil => rfl
    | cons v vs =>
      simp only [lookupCell]
      rw [if_neg (by rintro rfl; exact h (List.mem_cons_self _ _))]
      exact ih vs (fun hc => h (List.mem_cons_of_mem _ hc))

theorem lookupCell_map_mem {c : String} (L : List String) (f : String → Cell)
    (h : c ∈ L) : lookupCell L (L.map f) c = f c := by
  induction L with
  | nil => cases h
  | cons c0 cs ih =>
    simp only [List.map_cons, lookupCell]
    by_cases he : c0 = c
    · rw [if_pos he, he]
    · rw [if_neg he]
      exact ih ((List.mem_cons.mp h).resolve_left (fun hc => he hc.symm))

theorem getD_map_of_lt {α β : Type} (f : α → β) (l : List α) (i : Nat) (d : β) (d0 : α)
    (h : i < l.length) : (l.map f).getD i d = f (l.getD i d0) := by
  induction l generalizing i with
  | nil => simp at h
  | cons x xs ih =>
    cases i with
    | zero => rfl
    | succ n =>
      simp only [List.map_cons, List.getD_cons_succ]
      exact ih n (by simpa using h)

theorem getD_append_left_my {α : Type} (l l' : List α) (d : α) (i : Nat)
    (h : i < l.length) : (l ++ l').getD i d = l.getD i d := by
  induction l generalizing i with
  | nil => simp at h
  | cons x xs ih =>
    cases i with
    | zero => rfl
    | succ n =>
      simp only [List.cons_append, List.getD_cons_succ]
      exact ih n (by simpa using h)

theorem getD_append_right_my {α : Type} (l l' : List α) (d : α) (i : Nat) :
    (l ++ l').getD (l.length + i) d = l'.getD i d := by
  induction l with
  | nil => simp
  | cons x xs ih =>
    simp only [List.cons_append, List.length_cons]
    have hn : xs.length + 1 + i = (xs.length + i) + 1 := by omega
    rw [hn, List.getD_cons_succ, ih]

theorem getD_mem_of_lt {α : Type} (l : List α) (j : Nat) (d : α) (h : j < l.length) :
    l.getD j d ∈ l := by
  induction l generalizing j with
  | nil => simp at h
  | cons x xs ih =>
    cases j with
    | zero => exact List.mem_cons_self _ _
    | succ n =>
      rw [List.getD_cons_succ]
      exact List.mem_cons_of_mem _ (ih n (by simpa using h))

theorem cellsDiffer_self (x : Cell) : cellsDiffer x x = false := by
  cases x with
  | none => rfl
  | some v => simp [cellsDiffer]

theorem not_onlyA_self (r : List Cell) :
    ((r.any fun c => c.isSome) && (r.all fun c => c.isNone)) = false := by
  induction r with
  | nil => rfl
  | cons c cs ih =>
    cases c with
    | none => simpa [List.any_cons, List.all_cons] using ih
    | some v => simp [List.any_cons, List.all_cons]

theorem rowStatus_self (cols : List String) (r : List Cell) :
    rowStatus cols cols r r = Status.MATCH := by
  have h1 := not_onlyA_self r
  have h2 : ((r.all fun c => c.isNone) && (r.any fun c => c.isSome)) = false := by
    rw [Bool.and_comm]; exact h1
  have h3 : (cols.any fun c => cellsDiffer (lookupCell cols r c) (lookupCell cols r c)) = false := by
    induction cols with
    | nil => rfl
    | cons x xs ih => simp [List.any_cons, cellsDiffer_self, ih]
  simp [rowStatus, h1, h2, h3]

theorem zip_self_eq_map {α : Type} (l : List α) : l.zip l = l.map (fun x => (x, x)) := by
  induction l with
  | nil => rfl
  | cons x xs ih => simp [List.zip_cons_cons, ih]

theorem snd_mem_of_mem_enumFrom {α : Type} {p : Nat × α} :
    ∀ {n : Nat} {l : List α}, p ∈ List.enumFrom n l → p.2 ∈ l := by
  intro n l
  induction l generalizing n with
  | nil => intro h; cases h
  | cons x xs ih =>
    intro h
    rcases List.mem_cons.mp h with h1 | h2
    · rw [h1]; exact List.mem_cons_self _ _
    · exact List.mem_cons_of_mem _ (ih h2)

theorem diffStats_all_match {sts : List Status} (h : ∀ s ∈ sts, s = Status.MATCH) :
    diffStats sts = ⟨sts.length, sts.length, 0, 0, 0⟩ := by
  have hm : sts.filter (fun t => decide (t = Status.MATCH)) = sts :=
    List.filter_eq_self.mpr (fun a ha => by simp [h a ha])
  have hd : sts.filter (fun t => decide (t = Status.DIFF)) = [] :=
    List.filter_eq_nil_iff.mpr (fun a ha => by simp [h a ha])
  have hoa : sts.filter (fun t => decide (t = Status.ONLY_A)) = [] :=
    List.filter_eq_nil_iff.mpr (fun a ha => by simp [h a ha])
  have hob : sts.filter (fun t => decide (t = Status.ONLY_B)) = [] :=
    List.filter_eq_nil_iff.mpr (fun a ha => by simp [h a ha])
  simp [diffStats, countStatus, hm, hd, hoa, hob]

/-! ## Concrete tables used by individual claims -/

/-- Table A of the key-diff scenario of claim C1. -/
def dxA : DF :=
  ⟨["id", "name"], [[some (.int 1), some (.str "Alice")], [some (.int 2), some (.str "Bob")]]⟩

/-- Table B of the key-diff scenario of claim C1. -/
def dxB : DF :=
  ⟨["id", "name"], [[some (.int 2), some (.str "Bob")], [some (.int 3), some (.str "Cara")]]⟩

/-- Claim C1: the spec's key-diff scenario says id 1 → ONLY_A, id 2 → MATCH,
id 3 → ONLY_B with stats total 3 / matching 1 / only_a 1 / only_b 1.  The
code instead classifies all three aligned rows DIFF with stats total 3 /
different 3 and zero matching/only counts: the aligned projections keep the
key column and the `_merge` indicator (so the all-missing test of
ONLY_A/ONLY_B never fires) and the `_row_a`/`_row_b` tracking columns (whose
differing positions make even the id-2 row a DIFF).  The first conjunct
records the key values of the three result rows (ids 1, 2, 3 in order), the
second their statuses and the statistics. -/
theorem key_diff_scenario_all_diff :
    (diff_csv_side_by_side dxA dxB (some ["id"]) false false false false false).toOption.map
        (fun p => p.1.map (fun r => r.vals.getD 0 (none, none)))
      = some [(some (.int 1), some (.int 1)), (some (.int 2), some (.int 2)),
          (some (.int 3), some (.int 3))] ∧
    (diff_csv_side_by_side dxA dxB (some ["id"]) false false false false false).toOption.map
        (fun p => (p.1.map (fun r => r.status), p.2))
      = some ([.DIFF, .DIFF, .DIFF],
          { total := 3, matching := 0, different := 3, only_a := 0, only_b := 0 }) := by
  decide

/-- Counterexample to claim C2: `union_csvs` on column lists `[id, name]`
and `[id, dept]` produces the *sorted* union `[dept, id, name]`
(`pd.Index.union` sorts), not the claimed encounter order `[id, name, dept]`. -/
theorem union_cols_not_encounter_order :
    (union_csvs ⟨["id", "name"], []⟩ ⟨["id", "dept"], []⟩ false none).cols
        = ["dept", "id", "name"] ∧
    (["dept", "id", "name"] : List String) ≠ ["id", "name", "dept"] := by
  decide

/-- Counterexample to claim C3: a cross join with a supplied key that is
absent from the left table does *not* succeed — `join_csvs` validates the
keys before branching on the kind and raises the key-not-found error. -/
theorem cross_join_missing_key_errors :
    join_csvs ⟨["a"], [[some (.int 1)]]⟩ ⟨["b"], [[some (.int 2)]]⟩ ["k"] "cross"
      = .error (.keyNotFoundLeft "k") := by
  rfl

/-- Input table with a leading/trailing-space value, used against claim C7. -/
def nwA : DF := ⟨["name"], [[some (.str " Alice ")]]⟩

/-- The other input table used against claim C7. -/
def nwB : DF := ⟨["name"], [[some (.str "Alice")]]⟩

/-- Counterexample to claim C7: with whitespace trimming enabled, the value
carried in the `name_A` column of the diff result is the trimmed `"Alice"`,
not the original input value `" Alice "` — normalisation is applied to the
frames the result table is built from. -/
theorem diff_returns_normalized_not_original :
    nwA.rows = [[some (.str " Alice ")]] ∧
    (diff_csv_side_by_side nwA nwB none true true false false false).toOption.map
        (fun p => p.1.map (fun r => r.vals))
      = some [[(some (.str "Alice"), some (.str "Alice"))]] ∧
    (some (Val.str "Alice") : Cell) ≠ some (Val.str " Alice ") := by
  decide

/-- Claim C8: the sanitisation actually performed by
`write_dataframes_to_excel` is `sheet_name[:31].replace('/', '_').replace('\\', '_')`,
which truncates to 31 characters but leaves `? * [ ]` in place, so the name
written for `"Report?*[1]"` still contains forbidden characters — while the
repository's own `utils.safe_sheet_name` (not called there) substitutes all
six. -/
theorem write_sheet_name_keeps_invalid_chars :
    writeSheetName "Report?*[1]" = "Report?*[1]" ∧
    validSheetName (writeSheetName "Report?*[1]") = false ∧
    (writeSheetName ⟨List.replicate 40 'a'⟩).toList.length = 31 ∧
    safe_sheet_name "Report?*[1]" = "Report___1_" ∧
    validSheetName (safe_sheet_name "Report?*[1]") = true := by
  decide

/-- Counterexample to claim C10: a non-key column named `note_a` that occurs
only in table A is *not* excluded from the A-side projection — it receives no
suffix in the outer merge (first conjunct places it unsuffixed among the
merged columns) yet passes the `endswith('_a')` filter, so its values stay in
the A-side aligned frame. -/
theorem suffix_named_column_not_dropped :
    "note_a" ∈ (alignKeyMerged ⟨["id", "note_a"], []⟩ ⟨["id"], []⟩ ["id"]).cols ∧
    "note_a" ∈ alignSelectA ["id"] (alignKeyMerged ⟨["id", "note_a"], []⟩ ⟨["id"], []⟩ ["id"]).cols ∧
    "note_a" ∉ (["id"] : List String) ∧
    "note_a" ∉ (⟨["id"], []⟩ : DF).cols := by
  decide

/-- Claim C7 (amended): normalisation is applied to working copies of both
tables before alignment, and the returned result (including the `_A`/`_B`
values) is built from those normalised copies: diffing with trimming (resp.
case folding) enabled gives exactly the result of diffing the pre-trimmed
(resp. pre-lowercased) tables with normalisation disabled. -/
theorem diff_normalized_values_returned (a b : DF) (kc : Option (List String))
    (cbi ico sod : Bool) :
    diff_csv_side_by_side a b kc cbi true false ico sod
        = diff_csv_side_by_side (stripDF a) (stripDF b) kc cbi false false ico sod ∧
    diff_csv_side_by_side a b kc cbi false true ico sod
        = diff_csv_side_by_side (lowerDF a) (lowerDF b) kc cbi false false ico sod :=
  ⟨rfl, rfl⟩

/-- Claim C6: diffing any table against itself by row index classifies every
aligned row MATCH, and the statistics have matching = total with zero
DIFF/ONLY_A/ONLY_B counts (for either value of the column-order flag and of
the show-only-diffs filter). -/
theorem diff_by_index_self_all_match (A : DF) (ico sod : Bool) :
    ∃ rows total,
      diff_csv_side_by_side A A none true false false ico sod
          = .ok (rows, ⟨total, total, 0, 0, 0⟩) ∧
      ∀ r ∈ rows, r.status = Status.MATCH := by
  have halign : (align_by_index A A ico).1 = (align_by_index A A ico).2 := by
    cases ico <;> rfl
  set X := (align_by_index A A ico).1 with hX
  have hres : diff_csv_side_by_side A A none true false false ico sod
      = .ok (compareDFs X X sod) := by
    show Except.ok (compareDFs (align_by_index A A ico).1 (align_by_index A A ico).2 sod) = _
    rw [← halign]
  set allRows := (X.rows.zip X.rows).enum.map
      (fun p => diffRowOf X.cols X.cols p.1 p.2.1 p.2.2) with hAR
  have hall : ∀ r ∈ allRows, r.status = Status.MATCH := by
    intro r hr
    rcases List.mem_map.mp hr with ⟨p, hp, rfl⟩
    have hzip : p.2 ∈ X.rows.zip X.rows := snd_mem_of_mem_enumFrom hp
    rw [zip_self_eq_map] at hzip
    rcases List.mem_map.mp hzip with ⟨x, _, hxx⟩
    rw [show p.2.1 = x by rw [← hxx], show p.2.2 = x by rw [← hxx]]
    simpa [diffRowOf] using rowStatus_self X.cols x
  refine ⟨allRows.filter (fun r => !sod || !decide (r.status = Status.MATCH)),
    allRows.length, ?_, ?_⟩
  · rw [hres]
    have hstats : diffStats (allRows.map (fun r => r.status)) =
        ⟨allRows.length, allRows.length, 0, 0, 0⟩ := by
      rw [diffStats_all_match (fun s hs => by
        rcases List.mem_map.mp hs with ⟨r, hr, rfl⟩
        exact hall r hr)]
      simp
    show Except.ok (allRows.filter _, diffStats (allRows.map (fun r => r.status))) = _
    rw [hstats]
  · intro r hr
    exact hall r (List.mem_of_mem_filter hr)

theorem concat2_rows_length (a b : DF) :
    (concat2 a b).rows.length = a.rows.length + b.rows.length := by
  simp [concat2, reindexDF]

theorem concat2_cols (a b : DF) : (concat2 a b).cols = colUnion a.cols b.cols := rfl

/-- Claim C4: for tables with disjoint rows, the two-file union without
deduplication has exactly `|A| + |B|` rows, and its column set is the union
of the two tables' column name sets. -/
theorem union_disjoint_preserves (a b : DF)
    (_hdisj : ∀ r ∈ a.rows, r ∉ b.rows) :
    (union_csvs a b false none).rows.length = a.rows.length + b.rows.length ∧
    ∀ c, c ∈ (union_csvs a b false none).cols ↔ c ∈ a.cols ∨ c ∈ b.cols := by
  have hu : union_csvs a b false none =
      (if colSetEq a.cols b.cols then concat2 a b
       else concat2 (reindexDF a (sortStrs (colUnion a.cols b.cols)))
              (reindexDF b (sortStrs (colUnion a.cols b.cols)))) := by
    simp only [union_csvs]
    cases colSetEq a.cols b.cols <;> simp
  rw [hu]
  cases h : colSetEq a.cols b.cols with
  | true =>
    rw [if_pos rfl]
    exact ⟨concat2_rows_length a b, fun c => by rw [concat2_cols]; exact mem_colUnion⟩
  | false =>
    rw [if_neg (by simp)]
    constructor
    · rw [concat2_rows_length]
      simp [reindexDF]
    · intro c
      rw [concat2_cols]
      show c ∈ colUnion (sortStrs (colUnion a.cols b.cols)) (sortStrs (colUnion a.cols b.cols))
          ↔ _
      rw [colUnion_self, mem_sortStrs, mem_colUnion]

/-- Witness table A for the claim C4 theorem. -/
def uw1 : DF := ⟨["id", "name"], [[some (.int 1), some (.str "A")]]⟩

/-- Witness table B for the claim C4 theorem. -/
def uw2 : DF := ⟨["id", "dept"], [[some (.int 2), some (.str "Ops")]]⟩

/-- Witness for the claim C4 theorem at two concrete disjoint tables. -/
theorem union_disjoint_preserves_witness :
    (union_csvs uw1 uw2 false none).rows.length = uw1.rows.length + uw2.rows.length ∧
    ∀ c, c ∈ (union_csvs uw1 uw2 false none).cols ↔ c ∈ uw1.cols ∨ c ∈ uw2.cols :=
  union_disjoint_preserves uw1 uw2 (by decide)

theorem concatAll_pair_cols (a b : DF) : (concatAll [a, b]).cols = colUnion a.cols b.cols := by
  simp [concatAll, colUnion_nil]

theorem concatAll_pair_rows (a b : DF) :
    (concatAll [a, b]).rows
      = (reindexDF a (colUnion a.cols b.cols)).rows
          ++ (reindexDF b (colUnion a.cols b.cols)).rows := by
  simp [concatAll, colUnion_nil]

/-- Claim C2 (amended): when the column sets differ, the multi-file union
(`pd.concat`) orders the result columns as the first table's columns
followed by the later table's new names in encounter order, and right-pads
each table with missing values for the columns it lacks — but the two-file
`union_csvs` instead orders its result columns as the *sorted* union of the
names (`pd.Index.union`). -/
theorem union_column_order (a b : DF) (h : colSetEq a.cols b.cols = false) :
    (union_multiple_csvs [a, b] false none).toOption.map DF.cols
        = some (colUnion a.cols b.cols) ∧
    (union_csvs a b false none).cols = sortStrs (colUnion a.cols b.cols) ∧
    (∀ i, i < a.rows.length → ∀ c ∈ b.cols, c ∉ a.cols →
      lookupCell (concatAll [a, b]).cols ((concatAll [a, b]).rows.getD i []) c = none) ∧
    (∀ j, j < b.rows.length → ∀ c ∈ a.cols, c ∉ b.cols →
      lookupCell (concatAll [a, b]).cols
        ((concatAll [a, b]).rows.getD (a.rows.length + j) []) c = none) := by
  refine ⟨?_, ?_, ?_, ?_⟩
  · have hok : union_multiple_csvs [a, b] false none = .ok (concatAll [a, b]) := rfl
    rw [hok]
    simp [Except.toOption, concatAll_pair_cols]
  · simp only [union_csvs]
    rw [h]
    simp only [Bool.false_eq_true, if_false]
    rw [concat2_cols]
    show colUnion (sortStrs (colUnion a.cols b.cols)) (sortStrs (colUnion a.cols b.cols)) = _
    rw [colUnion_self]
  · intro i hi c hc hca
    rw [concatAll_pair_cols, concatAll_pair_rows]
    have hlen : i < (reindexDF a (colUnion a.cols b.cols)).rows.length := by
      simpa [reindexDF] using hi
    rw [getD_append_left_my _ _ _ _ hlen]
    show lookupCell (colUnion a.cols b.cols)
        ((a.rows.map (fun r => reindexRow a.cols r (colUnion a.cols b.cols))).getD i []) c = none
    rw [getD_map_of_lt _ _ _ _ [] hi]
    show lookupCell (colUnion a.cols b.cols)
        ((colUnion a.cols b.cols).map (lookupCell a.cols (a.rows.getD i []))) c = none
    rw [lookupCell_map_mem _ _ (mem_colUnion.mpr (Or.inr hc))]
    exact lookupCell_not_mem _ _ hca
  · intro j hj c hc hcb
    rw [concatAll_pair_cols, concatAll_pair_rows]
    have hlen : (reindexDF a (colUnion a.cols b.cols)).rows.length = a.rows.length := by
      simp [reindexDF]
    rw [← hlen, getD_append_right_my]
    show lookupCell (colUnion a.cols b.cols)
        ((b.rows.map (fun r => reindexRow b.cols r (colUnion a.cols b.cols))).getD j []) c = none
    rw [getD_map_of_lt _ _ _ _ [] hj]
    show lookupCell (colUnion a.cols b.cols)
        ((colUnion a.cols b.cols).map (lookupCell b.cols (b.rows.getD j []))) c = none
    rw [lookupCell_map_mem _ _ (mem_colUnion.mpr (Or.inl hc))]
    exact lookupCell_not_mem _ _ hcb

/-- Witness for the claim C2 theorem at the spec's own scenario
(columns `[id, name]` and `[id, dept]`). -/
theorem union_column_order_witness :
    (union_multiple_csvs [uw1, uw2] false none).toOption.map DF.cols
        = some (colUnion uw1.cols uw2.cols) ∧
    (union_csvs uw1 uw2 false none).cols = sortStrs (colUnion uw1.cols uw2.cols) ∧
    (∀ i, i < uw1.rows.length → ∀ c ∈ uw2.cols, c ∉ uw1.cols →
      lookupCell (concatAll [uw1, uw2]).cols ((concatAll [uw1, uw2]).rows.getD i []) c = none) ∧
    (∀ j, j < uw2.rows.length → ∀ c ∈ uw1.cols, c ∉ uw2.cols →
      lookupCell (concatAll [uw1, uw2]).cols
        ((concatAll [uw1, uw2]).rows.getD (uw1.rows.length + j) []) c = none) :=
  union_column_order uw1 uw2 (by decide)

theorem validateJoinKeys_none (l r : DF) (keys : List String)
    (h : ∀ k ∈ keys, k ∈ l.cols ∧ k ∈ r.cols) : validateJoinKeys l r keys = none := by
  induction keys with
  | nil => rfl
  | cons k ks ih =>
    have hk := h k (List.mem_cons_self _ _)
    simp only [validateJoinKeys]
    rw [if_pos hk.1, if_pos hk.2]
    exact ih (fun x hx => h x (List.mem_cons_of_mem _ hx))

theorem flatMap_const_length {α β : Type} (l : List α) (g : α → List β)
    (n : Nat) (h : ∀ x ∈ l, (g x).length = n) :
    (l.flatMap g).length = l.length * n := by
  induction l with
  | nil => simp
  | cons x xs ih =>
    simp only [List.flatMap_cons, List.length_append, List.length_cons]
    rw [h x (List.mem_cons_self _ _), ih (fun y hy => h y (List.mem_cons_of_mem _ hy))]
    ring

theorem crossJoin_rows_length (l r : DF) :
    (crossJoin l r).rows.length = l.rows.length * r.rows.length := by
  show (l.rows.flatMap (fun lr => r.rows.map (fun rr => lr ++ rr))).length = _
  exact flatMap_const_length _ _ _ (fun x _ => by simp)

theorem crossJoin_pairs (l r : DF) (la rb : List Cell)
    (hla : la ∈ l.rows) (hrb : rb ∈ r.rows) : (la ++ rb) ∈ (crossJoin l r).rows := by
  show (la ++ rb) ∈ l.rows.flatMap (fun lr => r.rows.map (fun rr => lr ++ rr))
  rw [List.mem_flatMap]
  exact ⟨la, hla, List.mem_map.mpr ⟨rb, hrb, rfl⟩⟩

/-- Claim C3 (amended): when every supplied key column exists in both tables
a cross join succeeds, performing no key comparison — the result pairs every
left row with every right row, with exactly `|L| × |R|` rows — but the key
columns are still validated before the join-kind branch, so a missing key
column makes even a cross join fail (see the counterexample theorem). -/
theorem cross_join_validates_then_pairs (l r : DF) (keys : List String)
    (h : ∀ k ∈ keys, k ∈ l.cols ∧ k ∈ r.cols) :
    join_csvs l r keys "cross" = .ok (crossJoin l r) ∧
    (crossJoin l r).rows.length = l.rows.length * r.rows.length ∧
    ∀ la ∈ l.rows, ∀ rb ∈ r.rows, (la ++ rb) ∈ (crossJoin l r).rows := by
  refine ⟨?_, crossJoin_rows_length l r, fun la hla rb hrb => crossJoin_pairs l r la rb hla hrb⟩
  simp only [join_csvs]
  rw [if_pos (by decide : ("cross" : String) ∈ validHow), validateJoinKeys_none l r keys h]
  simp

/-- Witness left table for the claim C3 theorem. -/
def jwL : DF := ⟨["k"], [[some (.int 1)], [some (.int 2)]]⟩

/-- Witness right table for the claim C3 theorem. -/
def jwR : DF := ⟨["k"], [[some (.int 3)]]⟩

/-- Witness for the claim C3 theorem: a cross join with a key present in
both tables succeeds and pairs all rows. -/
theorem cross_join_validates_then_pairs_witness :
    join_csvs jwL jwR ["k"] "cross" = .ok (crossJoin jwL jwR) ∧
    (crossJoin jwL jwR).rows.length = jwL.rows.length * jwR.rows.length ∧
    ∀ la ∈ jwL.rows, ∀ rb ∈ jwR.rows, (la ++ rb) ∈ (crossJoin jwL jwR).rows :=
  cross_join_validates_then_pairs jwL jwR ["k"] (by decide)

theorem merge_strict_ok_aux (sheet : String) (refCols : List String)
    (rest : List (String × DF)) (h : ∀ p ∈ rest, p.2.cols = refCols) :
    mergeRowsStrict sheet refCols rest = .ok ((rest.map (fun p => p.2.rows)).flatten) := by
  induction rest with
  | nil => rfl
  | cons q rest ih =>
    obtain ⟨f, df⟩ := q
    have hq : df.cols = refCols := h (f, df) (List.mem_cons_self _ _)
    simp only [mergeRowsStrict]
    rw [if_pos hq, ih (fun p hp => h p (List.mem_cons_of_mem _ hp))]
    simp

theorem merge_strict_error_aux (sheet : String) (refCols : List String)
    (rest : List (String × DF)) (h : ∃ p ∈ rest, p.2.cols ≠ refCols) :
    ∃ cur, mergeRowsStrict sheet refCols rest = .error (.columnMismatch sheet refCols cur) ∧
      cur ≠ refCols := by
  induction rest with
  | nil => rcases h with ⟨p, hp, _⟩; cases hp
  | cons q rest ih =>
    obtain ⟨f, df⟩ := q
    by_cases hq : df.cols = refCols
    · rcases h with ⟨p, hp, hne⟩
      rcases List.mem_cons.mp hp with rfl | hp2
      · exact absurd hq hne
      · rcases ih ⟨p, hp2, hne⟩ with ⟨cur, hcur, hcne⟩
        refine ⟨cur, ?_, hcne⟩
        simp only [mergeRowsStrict]
        rw [if_pos hq, hcur]
    · exact ⟨df.cols, by simp only [mergeRowsStrict]; rw [if_neg hq], hq⟩

/-- Claim C5: in strict mode, if every later occurrence of the sheet has
columns identical in name and order to the reference (first) occurrence, the
merge succeeds with the reference columns and a row count equal to the sum
of the per-workbook row counts; if any later occurrence deviates — a
re-ordering of the same names included, since column lists are compared as
ordered lists — the merge stops with a column-mismatch error carrying the
sheet name, the reference columns and the deviating columns, and no merged
sheet is produced. -/
theorem merge_strict_spec (sheet rf : String) (rdf : DF) (rest : List (String × DF)) :
    ((∀ p ∈ rest, p.2.cols = rdf.cols) →
      ∃ m, mergeSheetsStrict ((rf, rdf) :: rest) sheet = .ok m ∧
        m.rows.length = rdf.rows.length + (rest.map (fun p => p.2.rows.length)).sum ∧
        m.cols = rdf.cols) ∧
    ((∃ p ∈ rest, p.2.cols ≠ rdf.cols) →
      ∃ cur, mergeSheetsStrict ((rf, rdf) :: rest) sheet
          = .error (.columnMismatch sheet rdf.cols cur) ∧ cur ≠ rdf.cols) := by
  constructor
  · intro h
    refine ⟨⟨rdf.cols, rdf.rows ++ (rest.map (fun p => p.2.rows)).flatten⟩, ?_, ?_, rfl⟩
    · simp only [mergeSheetsStrict]
      rw [merge_strict_ok_aux sheet rdf.cols rest h]
    · simp only [List.length_append, List.length_flatten, List.map_map]
      rfl
  · intro h
    rcases merge_strict_error_aux sheet rdf.cols rest h with ⟨cur, hc, hne⟩
    exact ⟨cur, by simp only [mergeSheetsStrict]; rw [hc], hne⟩

/-- Witness reference sheet for the claim C5 theorem. -/
def wb1 : DF := ⟨["id", "name"], [[some (.int 1), some (.str "A")], [some (.int 2), some (.str "B")]]⟩

/-- Witness matching sheet (identical columns) for the claim C5 theorem. -/
def wb2 : DF := ⟨["id", "name"], [[some (.int 3), some (.str "C")]]⟩

/-- Witness deviating sheet (same columns, order swapped) for the claim C5
theorem. -/
def wb2swapped : DF := ⟨["name", "id"], [[some (.str "C"), some (.int 3)]]⟩

/-- Witness for the claim C5 theorem: identical columns merge with summed
row count; a column-order swap yields the mismatch error. -/
theorem merge_strict_spec_witness :
    (∃ m, mergeSheetsStrict [("w1", wb1), ("w2", wb2)] "S" = .ok m ∧
        m.rows.length = wb1.rows.length + ([("w2", wb2)].map (fun p => p.2.rows.length)).sum ∧
        m.cols = wb1.cols) ∧
    (∃ cur, mergeSheetsStrict [("w1", wb1), ("w2", wb2swapped)] "S"
        = .error (.columnMismatch "S" wb1.cols cur) ∧ cur ≠ wb1.cols) :=
  ⟨(merge_strict_spec "S" "w1" wb1 [("w2", wb2)]).1 (by decide),
   (merge_strict_spec "S" "w1" wb1 [("w2", wb2swapped)]).2 ⟨("w2", wb2swapped), by decide, by decide⟩⟩

theorem normRow_length (df : DF) (f : Cell → Cell) :
    ∀ (r : List Cell) (k : Nat), (normRow df f k r).length = r.length := by
  intro r
  induction r with
  | nil => intro k; rfl
  | cons c cs ih => intro k; simp [normRow, ih]

theorem normRow_getD (df : DF) (f : Cell → Cell) :
    ∀ (r : List Cell) (k j : Nat), j < r.length →
      (normRow df f k r).getD j none
        = (if colIsObject df (k + j) then f (r.getD j none) else r.getD j none) := by
  intro r
  induction r with
  | nil => intro k j h; simp at h
  | cons c cs ih =>
    intro k j h
    cases j with
    | zero => simp [normRow]
    | succ n =>
      have h' : n < cs.length := by simpa using h
      simp only [normRow, List.getD_cons_succ]
      rw [ih (k + 1) n h']
      have hkn : k + 1 + n = k + (n + 1) := by omega
      rw [hkn]

/-- Claim C9: with trimming or case folding enabled, every missing value in
an object-dtype (string-typed) column becomes the literal string `"nan"` in
the normalised frame fed to alignment and comparison; consequently two such
cells compare as equal non-missing strings, and a row holding such a cell is
no longer all-missing, defeating the ONLY_A/ONLY_B detection. -/
theorem strip_missing_in_object_cols_to_nan (df : DF) (i j : Nat)
    (hi : i < df.rows.length) (hj : j < (df.rows.getD i []).length)
    (hmiss : (df.rows.getD i []).getD j none = none)
    (hobj : colIsObject df j = true) :
    ((stripDF df).rows.getD i []).getD j none = some (Val.str "nan") ∧
    ((lowerDF df).rows.getD i []).getD j none = some (Val.str "nan") ∧
    ((stripDF df).rows.getD i []).all (fun c => c.isNone) = false ∧
    cellsDiffer (some (Val.str "nan")) (some (Val.str "nan")) = false := by
  have hrow : (stripDF df).rows.getD i [] = normRow df astypeStrStripCell 0 (df.rows.getD i []) := by
    show (df.rows.map (normRow df astypeStrStripCell 0)).getD i [] = _
    exact getD_map_of_lt _ _ _ _ [] hi
  have hrowL : (lowerDF df).rows.getD i [] = normRow df astypeStrLowerCell 0 (df.rows.getD i []) := by
    show (df.rows.map (normRow df astypeStrLowerCell 0)).getD i [] = _
    exact getD_map_of_lt _ _ _ _ [] hi
  have h1 : ((stripDF df).rows.getD i []).getD j none = some (Val.str "nan") := by
    rw [hrow, normRow_getD df _ _ 0 j hj]
    simp only [Nat.zero_add, hobj, if_true, hmiss]
    rfl
  have h2 : ((lowerDF df).rows.getD i []).getD j none = some (Val.str "nan") := by
    rw [hrowL, normRow_getD df _ _ 0 j hj]
    simp only [Nat.zero_add, hobj, if_true, hmiss]
    rfl
  refine ⟨h1, h2, ?_, by decide⟩
  have hlen : j < ((stripDF df).rows.getD i []).length := by
    rw [hrow, normRow_length]
    exact hj
  cases hall : ((stripDF df).rows.getD i []).all (fun c => c.isNone) with
  | false => rfl
  | true =>
    exfalso
    have hm := getD_mem_of_lt _ j (none : Cell) hlen
    have := (List.all_eq_true.mp hall) _ hm
    rw [h1] at this
    simp at this

/-- Witness table for the claim C9 theorem: a one-column frame whose column
is object-dtype (its second row holds a string) with a missing first cell. -/
def sdf : DF := ⟨["a"], [[none], [some (.str "x")]]⟩

/-- Witness for the claim C9 theorem at the concrete frame `sdf`. -/
theorem strip_missing_in_object_cols_to_nan_witness :
    ((stripDF sdf).rows.getD 0 []).getD 0 none = some (Val.str "nan") ∧
    ((lowerDF sdf).rows.getD 0 []).getD 0 none = some (Val.str "nan") ∧
    ((stripDF sdf).rows.getD 0 []).all (fun c => c.isNone) = false ∧
    cellsDiffer (some (Val.str "nan")) (some (Val.str "nan")) = false :=
  strip_missing_in_object_cols_to_nan sdf 0 0 (by decide) (by decide) (by decide) (by decide)

/-- Claim C10 (amended): in a key-based diff, a non-key column occurring in
only one of the two tables — provided its name ends in neither `_a` nor `_b`
and is not `_merge` — receives no suffix in the outer merge (it appears
among the merged columns under its own name) and is excluded from both
aligned projections, so its values appear in neither side of the diff result
and never contribute to DIFF classification; a single-side column whose name
happens to end in `_a` or `_b` slips through the suffix filter instead (see
the counterexample theorem). -/
theorem single_side_plain_column_dropped (a b : DF) (keys : List String) (c : String)
    (hA : c ∈ a.cols) (hB : c ∉ b.cols) (hk : c ∉ keys)
    (hsa : endsWithStr c "_a" = false) (hsb : endsWithStr c "_b" = false)
    (hm : c ≠ "_merge") :
    c ∈ (alignKeyMerged a b keys).cols ∧
    c ∉ alignSelectA keys (alignKeyMerged a b keys).cols ∧
    c ∉ alignSelectB keys (alignKeyMerged a b keys).cols := by
  have hrb : c ≠ "_row_b" := fun hc => by
    rw [hc] at hsb
    exact absurd hsb (by decide)
  have hcbK : c ∉ (addRowNums b "_row_b").cols := by
    show c ∉ b.cols ++ ["_row_b"]
    intro hmem
    rcases List.mem_append.mp hmem with h1 | h2
    · exact hB h1
    · exact hrb (List.mem_singleton.mp h2)
  refine ⟨?_, ?_, ?_⟩
  · show c ∈ mergeOutCols (addRowNums a "_row_a") (addRowNums b "_row_b") keys "_a" "_b" true
    unfold mergeOutCols
    apply List.mem_append.mpr
    apply Or.inl
    apply List.mem_append.mpr
    apply Or.inl
    apply List.mem_map.mpr
    refine ⟨c, ?_, ?_⟩
    · show c ∈ a.cols ++ ["_row_a"]
      exact List.mem_append.mpr (Or.inl hA)
    · rw [if_neg hk, if_neg hcbK]
  · intro hmem
    have hpred := (List.mem_filter.mp hmem).2
    simp [hsa, hk, hm] at hpred
  · intro hmem
    have hpred := (List.mem_filter.mp hmem).2
    simp [hsb, hk, hm] at hpred

/-- Witness table A (key plus a plain single-side column) for the claim C10
theorem. -/
def kwa : DF := ⟨["id", "city"], [[some (.int 1), some (.str "Rome")]]⟩

/-- Witness table B for the claim C10 theorem. -/
def kwb : DF := ⟨["id"], [[some (.int 1)]]⟩

/-- Witness for the claim C10 theorem: the A-only column `city` is dropped
from both aligned projections. -/
theorem single_side_plain_column_dropped_witness :
    "city" ∈ (alignKeyMerged kwa kwb ["id"]).cols ∧
    "city" ∉ alignSelectA ["id"] (alignKeyMerged kwa kwb ["id"]).cols ∧
    "city" ∉ alignSelectB ["id"] (alignKeyMerged kwa kwb ["id"]).cols :=
  single_side_plain_column_dropped kwa kwb ["id"] "city" (by decide) (by decide) (by decide)
    (by decide) (by decide) (by decide)

end ILoveExcel
